import Mathlib

/-!
Verification of the relevance engine of the Semantic Research Manager
(`semantic_checker.py` and `paper_storage.py`).

Python strings are modelled as `List Char`; the external text-embedding
model (`_encode_text`) is an abstract function `List Char → Except PyErr (List ℝ)`
so that encoder failures can be reasoned about; floating point numbers are
modelled as real numbers.  Mutating methods are modelled as state-passing
functions; an exception raised mid-method is modelled by an `Except.error`
carrying the state at the time the exception was raised.
-/

/-- Coerce a Lean string literal to the `List Char` model of Python strings. -/
def ps (s : String) : List Char := s.data

/-- Characters stripped by Python `str.strip()` with no arguments. -/
def isPySpace (c : Char) : Bool :=
  c = ' ' || c = '\t' || c = '\n' || c = '\r' || c = '\x0b' || c = '\x0c'

/-- Python `str.lstrip()`. -/
def lstrip (xs : List Char) : List Char := xs.dropWhile isPySpace

/-- Python `str.rstrip()`. -/
def rstrip (xs : List Char) : List Char := (xs.reverse.dropWhile isPySpace).reverse

/-- Python `str.strip()`. -/
def pyStrip (xs : List Char) : List Char := rstrip (lstrip xs)

/-- Does `sep` occur at the very start of `xs`? -/
def seqStarts : List Char → List Char → Bool
  | [], _ => true
  | _ :: _, [] => false
  | a :: as, b :: bs => a = b && seqStarts as bs

/-- Locate the first occurrence of `sep` in `xs`, returning the part before it
and the part after it.  `none` means `sep` does not occur, i.e. Python
`sep in xs` is false; `some (pre, post)` models `xs.split(sep)` having
`pre` as element 0 and `post` as the rest of the string after the first
separator occurrence. -/
def findSplit (sep : List Char) : List Char → Option (List Char × List Char)
  | [] => if seqStarts sep [] then some ([], []) else none
  | c :: rest =>
    if seqStarts sep (c :: rest) then some ([], (c :: rest).drop sep.length)
    else (findSplit sep rest).map (fun p => (c :: p.1, p.2))

/-- Errors raised by the modelled Python code: `ValueError`s raised by the
repository itself, and arbitrary failures escaping the embedding backend. -/
inductive PyErr where
  | valueError (msg : String)
  | encodeFailure (msg : String)
  deriving DecidableEq

/-- A context snippet record as stored in `SemanticResearchChecker.context_snippets`. -/
structure Snippet where
  id : List Char
  content : List Char
  source : List Char
  paper_id : Option (List Char)
  added_date : List Char
  deriving DecidableEq

/-- The snippet-section delimiter `"="*50` used by `_build_enhanced_context`
and `_extract_base_context`. -/
def delim : List Char := List.replicate 50 '='

/-- The lines contributed by one snippet inside `_build_enhanced_context`:
`• {content}\n`, then `  (Source: {source})\n` when the source is non-empty
(Python truthiness), then a blank line. -/
def snippetLines (s : Snippet) : List Char :=
  ps "• " ++ s.content ++ ps "\n" ++
    (if s.source ≠ [] then ps "  (Source: " ++ s.source ++ ps ")\n" else []) ++
    ps "\n"

/-- `SemanticResearchChecker._build_enhanced_context`: with no snippets the
base context is returned as is, otherwise a delimited snippet section is
appended. -/
def build_enhanced_context (snippets : List Snippet) (base : List Char) : List Char :=
  if snippets = [] then base
  else
    base ++ ps "\n\n" ++ delim ++ ps "\n" ++
      ps "RESEARCH INSIGHTS & SNIPPETS\n" ++ delim ++ ps "\n\n" ++
      (snippets.map snippetLines).flatten

/-- `SemanticResearchChecker._extract_base_context`: if the delimiter occurs in
the context text, return the part before its first occurrence, stripped;
otherwise return the text unchanged. -/
def extract_base_context (ctx : List Char) : List Char :=
  match findSplit delim ctx with
  | some p => pyStrip p.1
  | none => ctx

/-- Python truthiness of an optional string attribute (`if self.context_text:`):
true exactly when the attribute is set and non-empty. -/
def optTruthy : Option (List Char) → Bool
  | none => false
  | some s => !s.isEmpty

/-- The in-memory state of a `SemanticResearchChecker`.  The embedding backend
(`_encode_text`, an external machine-learning model) is carried as an abstract
fallible function so that all checker methods can be expressed over it. -/
structure Checker where
  encode : List Char → Except PyErr (List ℝ)
  context_embedding : Option (List ℝ)
  context_text : Option (List Char)
  context_snippets : List Snippet

/-- `numpy.linalg.norm`: the Euclidean norm of a vector. -/
noncomputable def norm2 (v : List ℝ) : ℝ :=
  Real.sqrt ((v.map (fun x => x * x)).sum)

/-- `numpy.dot` on two vectors of equal length. -/
def dotL : List ℝ → List ℝ → ℝ
  | a :: as, b :: bs => a * b + dotL as bs
  | _, _ => 0

/-- `SemanticResearchChecker._cosine_similarity`: normalize both embeddings and
take their dot product. -/
noncomputable def cosineSimilarity (e1 e2 : List ℝ) : ℝ :=
  dotL (e1.map (fun x => x / norm2 e1)) (e2.map (fun x => x / norm2 e2))

/-- The paper text assembled by `create_paper_embedding_with_notes`:
`"{title}\n\n{abstract}\n\nNOTES: {notes}"` when the notes are non-blank,
otherwise `"{title}\n\n{abstract}"`. -/
def paperText (title abstract notes : List Char) : List Char :=
  if pyStrip notes ≠ [] then
    title ++ ps "\n\n" ++ abstract ++ ps "\n\nNOTES: " ++ notes
  else
    title ++ ps "\n\n" ++ abstract

/-- `SemanticResearchChecker.create_paper_embedding_with_notes`: encode the
combined title/abstract/notes text. -/
def create_paper_embedding_with_notes (encode : List Char → Except PyErr (List ℝ))
    (title abstract notes : List Char) : Except PyErr (List ℝ) :=
  encode (paperText title abstract notes)

/-- The dictionary returned by `check_paper_relevance`. -/
structure RelevanceResult where
  relevance_score : ℝ
  category : String
  title : List Char
  abstract_length : Nat
  notes_included : Bool

/-- `SemanticResearchChecker.check_paper_relevance`: raises a `ValueError` when
no context embedding is loaded, otherwise embeds the paper (notes included),
takes the cosine similarity with the context embedding, multiplies by 100 and
classifies the score. -/
noncomputable def check_paper_relevance (ch : Checker)
    (title abstract notes : List Char) : Except PyErr RelevanceResult :=
  match ch.context_embedding with
  | none => .error (.valueError "Research context not loaded. Call load_research_context() first.")
  | some ce =>
    match create_paper_embedding_with_notes ch.encode title abstract notes with
    | .error e => .error e
    | .ok paperEmb =>
      let relevance_score := cosineSimilarity ce paperEmb * 100
      .ok { relevance_score := relevance_score
            category :=
              if relevance_score ≥ 85 then "Highly Relevant"
              else if relevance_score ≥ 65 then "Moderately Relevant"
              else if relevance_score ≥ 45 then "Somewhat Relevant"
              else "Low Relevance"
            title := title
            abstract_length := abstract.length
            notes_included := !(pyStrip notes).isEmpty }

/-- `SemanticResearchChecker.add_context_snippet`: build a fresh snippet id
from the snippet count and a timestamp, append the snippet, and, when a
context text is loaded (Python truthiness), recompose the context text and
re-encode it.  The state is mutated before the encoder runs, so an encoder
failure is reported together with the partially mutated state. -/
def add_context_snippet (ch : Checker) (content source : List Char)
    (paper_id : Option (List Char)) (now iso : List Char) :
    Except (PyErr × Checker) (List Char × Checker) :=
  let snippet_id := ps "snippet_" ++ (Nat.repr (ch.context_snippets.length + 1)).data ++ ps "_" ++ now
  let snippet : Snippet :=
    { id := snippet_id, content := content, source := source
      paper_id := paper_id, added_date := iso }
  let ch1 := { ch with context_snippets := ch.context_snippets ++ [snippet] }
  if optTruthy ch1.context_text then
    let base := extract_base_context (ch1.context_text.getD [])
    let newText := build_enhanced_context ch1.context_snippets base
    let ch2 := { ch1 with context_text := some newText }
    match ch.encode newText with
    | .error e => .error (e, ch2)
    | .ok emb => .ok (snippet_id, { ch2 with context_embedding := some emb })
  else .ok (snippet_id, ch1)

/-- Remove the first snippet with the given id from the list (`list.pop(i)` on
the first index whose snippet id matches); `none` when no snippet matches. -/
def removeFirstSnippet : List Snippet → List Char → Option (List Snippet)
  | [], _ => none
  | s :: rest, sid =>
    if s.id = sid then some rest
    else (removeFirstSnippet rest sid).map (fun l => s :: l)

/-- `SemanticResearchChecker.remove_context_snippet`: return `false` leaving
the state untouched when the id is unknown; otherwise remove the snippet and,
when a context text is loaded, recompose the context text and re-encode it. -/
def remove_context_snippet (ch : Checker) (snippet_id : List Char) :
    Except (PyErr × Checker) (Bool × Checker) :=
  match removeFirstSnippet ch.context_snippets snippet_id with
  | none => .ok (false, ch)
  | some snips' =>
    let ch1 := { ch with context_snippets := snips' }
    if optTruthy ch1.context_text then
      let base := extract_base_context (ch1.context_text.getD [])
      let newText := build_enhanced_context snips' base
      let ch2 := { ch1 with context_text := some newText }
      match ch.encode newText with
      | .error e => .error (e, ch2)
      | .ok emb => .ok (true, { ch2 with context_embedding := some emb })
    else .ok (true, ch1)

/-- A stored paper record (`paper_storage.py`).  Dictionary keys that
`add_paper` does not write are modelled as `Option` fields holding `none`;
`embedding_needs_update` is read back with `paper.get("embedding_needs_update", True)`,
so its absent state is distinguished from an explicit boolean. -/
structure Paper where
  id : List Char
  title : List Char
  abstract : List Char
  relevance_score : ℝ
  category : String
  added_date : List Char
  abstract_length : Nat
  status : List Char
  notes : List Char
  embedding : Option (List ℝ)
  embedding_needs_update : Option Bool
  embedding_updated_date : Option (List Char)
  recalculated_date : Option (List Char)
  updated_date : Option (List Char)

/-- `PaperStorage.add_paper`: generate the id
`paper_{len(papers)+1}_{timestamp}`, append a record with default status
`"to read"` and empty notes, and return the id together with the new list.
`now` is the `strftime("%Y%m%d_%H%M%S")` rendering of the current time and
`iso` its `isoformat()` rendering. -/
def add_paper (papers : List Paper) (title abstract : List Char)
    (relevance_score : ℝ) (category : String) (embedding : Option (List ℝ))
    (now iso : List Char) : List Char × List Paper :=
  let paper_id := ps "paper_" ++ (Nat.repr (papers.length + 1)).data ++ ps "_" ++ now
  let paper : Paper :=
    { id := paper_id, title := title, abstract := abstract
      relevance_score := relevance_score, category := category
      added_date := iso, abstract_length := abstract.length
      status := ps "to read", notes := []
      embedding := embedding, embedding_needs_update := none
      embedding_updated_date := none, recalculated_date := none
      updated_date := none }
  (paper_id, papers ++ [paper])

/-- `PaperStorage.delete_paper`: delete the first paper whose id matches,
returning whether a paper was deleted. -/
def delete_paper : List Paper → List Char → Bool × List Paper
  | [], _ => (false, [])
  | p :: rest, pid =>
    if p.id = pid then (true, rest)
    else
      let r := delete_paper rest pid
      (r.1, p :: r.2)

/-- `PaperStorage.update_paper_notes`: set the notes, the update date and the
`embedding_needs_update` flag on the first paper whose id matches. -/
def update_paper_notes : List Paper → List Char → List Char → List Char → List Paper
  | [], _, _, _ => []
  | p :: rest, pid, notes, iso =>
    if p.id = pid then
      { p with notes := notes, updated_date := some iso
               embedding_needs_update := some true } :: rest
    else p :: update_paper_notes rest pid notes iso

/-- Truthiness of the per-paper guard in `batch_update_embeddings_with_notes`:
`paper.get("notes", "")` is truthy (non-empty) and
`paper.get("embedding_needs_update", True)` is truthy (defaulting to true when
the key is absent). -/
def needsNotesUpdate (p : Paper) : Bool :=
  !p.notes.isEmpty && p.embedding_needs_update.getD true

/-- The per-paper loop of `PaperStorage.batch_update_embeddings_with_notes`.
Selected papers get a fresh notes-inclusive embedding, the update date, and a
cleared flag, then their relevance is recomputed; a failure while embedding
leaves the paper untouched, a failure while re-scoring leaves the embedding
fields already mutated; either failure only increments the error count.
Returns `((updated_count, error_count), updated papers)`. -/
noncomputable def batchLoop (ch : Checker) (now : List Char) :
    List Paper → (Nat × Nat) × List Paper
  | [] => ((0, 0), [])
  | p :: rest =>
    let r := batchLoop ch now rest
    if needsNotesUpdate p then
      match create_paper_embedding_with_notes ch.encode p.title p.abstract p.notes with
      | .error _ => ((r.1.1, r.1.2 + 1), p :: r.2)
      | .ok emb =>
        let p1 := { p with embedding := some emb
                           embedding_updated_date := some now
                           embedding_needs_update := some false }
        match check_paper_relevance ch p.title p.abstract p.notes with
        | .error _ => ((r.1.1, r.1.2 + 1), p1 :: r.2)
        | .ok res =>
          ((r.1.1 + 1, r.1.2),
            { p1 with relevance_score := res.relevance_score
                      category := res.category } :: r.2)
    else (r.1, p :: r.2)

/-- The statistics dictionary returned by `batch_update_embeddings_with_notes`. -/
structure BatchStats where
  updated_count : Nat
  error_count : Nat
  total_papers : Nat
  deriving DecidableEq

/-- `PaperStorage.batch_update_embeddings_with_notes`. -/
noncomputable def batch_update_embeddings_with_notes (ch : Checker) (now : List Char)
    (papers : List Paper) : BatchStats × List Paper :=
  let r := batchLoop ch now papers
  ({ updated_count := r.1.1, error_count := r.1.2, total_papers := papers.length }, r.2)

/-- The statistics dictionary returned by `recalculate_all_relevance_scores`. -/
structure RecalcStats where
  total_papers : Nat
  updated_papers : Nat
  unchanged_papers : Nat
  error_papers : Nat
  deriving DecidableEq

/-- The per-paper loop of `PaperStorage.recalculate_all_relevance_scores`:
each paper is re-scored with `check_paper_relevance(title, abstract)` — the
stored notes are not passed — and classified as updated when the absolute
score change exceeds 1.0; an exception increments the error count and leaves
that paper unchanged.  Returns
`((updated_count, unchanged_count, error_count), updated papers)`. -/
noncomputable def recalcLoop (ch : Checker) (now : List Char) :
    List Paper → (Nat × Nat × Nat) × List Paper
  | [] => ((0, 0, 0), [])
  | p :: rest =>
    let r := recalcLoop ch now rest
    match check_paper_relevance ch p.title p.abstract [] with
    | .error _ => ((r.1.1, r.1.2.1, r.1.2.2 + 1), p :: r.2)
    | .ok res =>
      let p' := { p with relevance_score := res.relevance_score
                         category := res.category
                         recalculated_date := some now }
      ((if 1 < |res.relevance_score - p.relevance_score| then r.1.1 + 1 else r.1.1,
        if 1 < |res.relevance_score - p.relevance_score| then r.1.2.1 else r.1.2.1 + 1,
        r.1.2.2), p' :: r.2)

/-- `PaperStorage.recalculate_all_relevance_scores`: raises a `ValueError`
when the checker has no context embedding, otherwise runs the loop and
returns the statistics together with the updated paper list. -/
noncomputable def recalculate_all_relevance_scores (ch : Checker) (now : List Char)
    (papers : List Paper) : Except PyErr (RecalcStats × List Paper) :=
  match ch.context_embedding with
  | none => .error (.valueError "No research context loaded. Please load context first.")
  | some _ =>
    let r := recalcLoop ch now papers
    .ok ({ total_papers := papers.length, updated_papers := r.1.1
           unchanged_papers := r.1.2.1, error_papers := r.1.2.2 }, r.2)

/-- One user-level storage operation, for stating invariants over arbitrary
interleavings of `add_paper` and `delete_paper`. -/
inductive StorageOp where
  | add (title abstract : List Char) (relevance_score : ℝ) (category : String)
      (embedding : Option (List ℝ)) (now iso : List Char)
  | del (paper_id : List Char)

/-- Run a sequence of storage operations, threading the paper list. -/
def runOps : List StorageOp → List Paper → List Paper
  | [], st => st
  | .add t a sc cat emb now iso :: rest, st =>
    runOps rest (add_paper st t a sc cat emb now iso).2
  | .del pid :: rest, st => runOps rest (delete_paper st pid).2

/-- The timestamps (`strftime` strings) of the `add` operations of a sequence. -/
def addTimestamps : List StorageOp → List (List Char)
  | [] => []
  | .add _ _ _ _ _ now _ :: rest => now :: addTimestamps rest
  | .del _ :: rest => addTimestamps rest

/-- The checker state after a snippet operation, whether it completed or
raised: the state committed by the Python method at return or raise time. -/
def exState {α : Type} : Except (PyErr × Checker) (α × Checker) → Checker
  | .ok r => r.2
  | .error r => r.2

/-- Classification used by the loop of `recalculate_all_relevance_scores`:
the paper raised an exception while being re-scored (notes are not passed). -/
noncomputable def recalcFails (ch : Checker) (p : Paper) : Bool :=
  match check_paper_relevance ch p.title p.abstract [] with
  | .error _ => true
  | .ok _ => false

/-- Classification used by the loop of `recalculate_all_relevance_scores`:
re-scoring succeeded and the absolute score change exceeds 1.0. -/
noncomputable def recalcUpdated (ch : Checker) (p : Paper) : Bool :=
  match check_paper_relevance ch p.title p.abstract [] with
  | .error _ => false
  | .ok r => decide (1 < |r.relevance_score - p.relevance_score|)

/-- Classification used by the loop of `recalculate_all_relevance_scores`:
re-scoring succeeded and the absolute score change does not exceed 1.0. -/
noncomputable def recalcUnchanged (ch : Checker) (p : Paper) : Bool :=
  match check_paper_relevance ch p.title p.abstract [] with
  | .error _ => false
  | .ok r => !decide (1 < |r.relevance_score - p.relevance_score|)

/-- An encoder that always succeeds with the one-dimensional embedding `[1]`. -/
def okOneEncoder : List Char → Except PyErr (List ℝ) := fun _ => .ok [1]

/-- An encoder returning `[1]` for short texts and `[-1]` for longer ones, so
notes-inclusive and notes-free paper texts of the same paper embed
differently. -/
def boundedEncoder : List Char → Except PyErr (List ℝ) :=
  fun s => .ok [if 10 < s.length then (-1 : ℝ) else 1]

/-- An encoder succeeding with `[1]` on short texts and raising on longer
ones, giving a batch in which exactly the long-texted papers fail. -/
def mixedEncoder : List Char → Except PyErr (List ℝ) :=
  fun s => if 10 < s.length then .error (.encodeFailure "boom") else .ok [(1 : ℝ)]

/-- An encoder that always raises, modelling a crashed embedding backend. -/
def failEncoder : List Char → Except PyErr (List ℝ) :=
  fun _ => .error (.encodeFailure "model crashed")

/-- A concrete snippet used in witnesses. -/
def snipA : Snippet := ⟨ps "snippet_1_x", ps "content A", [], none, ps "dateA"⟩

/-- A second concrete snippet used in witnesses. -/
def snipB : Snippet := ⟨ps "snippet_2_y", ps "content B", ps "source B", none, ps "dateB"⟩

/-- A checker with a loaded context and two snippets, used in witnesses. -/
def chC9 : Checker := ⟨okOneEncoder, some [1], some (ps "base context"), [snipA, snipB]⟩

/-- A checker with a loaded context whose encoder raises, exhibiting the
partial-state commit of `add_context_snippet`. -/
def chC8 : Checker := ⟨failEncoder, some [1], some (ps "my research context"), []⟩

/-- A checker whose encoder distinguishes short and long texts, used to show
that recalculation ignores stored notes. -/
def chC5 : Checker := ⟨boundedEncoder, some [1], none, []⟩

/-- A paper with non-blank notes whose notes-inclusive text is long while the
notes-free text is short, so the two scoring paths disagree. -/
def paperC5 : Paper :=
  ⟨ps "paper_1_x", ps "t", ps "a", 100, "Highly Relevant", ps "iso", 1,
    ps "to read", ps "important", none, some true, none, none, none⟩

/-- A checker whose encoder fails exactly on long texts, used for batch
isolation. -/
def chC4 : Checker := ⟨mixedEncoder, some [1], none, []⟩

/-- A short-texted paper that re-scores successfully with a large change. -/
def pC4a : Paper :=
  ⟨ps "paper_1_x", ps "t", ps "a", 0, "Low Relevance", ps "iso", 1,
    ps "to read", [], none, none, none, none, none⟩

/-- A long-titled paper whose re-scoring raises in the batch. -/
def pC4b : Paper :=
  ⟨ps "paper_2_x", ps "a long paper title", ps "another abstract", 50,
    "Somewhat Relevant", ps "iso", 16, ps "reading", [], none, none, none, none, none⟩

/-- A checker with a loaded context and a total encoder, for the notes batch. -/
def chC6 : Checker := ⟨okOneEncoder, some [1], none, []⟩

/-- A paper with non-empty notes and the staleness flag set. -/
def pC6a : Paper :=
  ⟨ps "paper_1_x", ps "t", ps "a", 0, "Low Relevance", ps "iso", 1,
    ps "to read", ps "great paper", none, some true, none, none, none⟩

/-- A paper with empty notes, which the notes-batch must leave untouched. -/
def pC6b : Paper :=
  ⟨ps "paper_2_x", ps "u", ps "b", 50, "Somewhat Relevant", ps "iso", 1,
    ps "read", [], none, none, none, none, none⟩

/-- A paper whose notes are blank but non-empty (a single space) with the
staleness flag set: the batch processes it although its notes are blank. -/
def pC6blank : Paper :=
  ⟨ps "paper_3_x", ps "v", ps "c", 50, "Somewhat Relevant", ps "iso", 1,
    ps "read", ps " ", none, some true, none, none, none⟩

section TextLemmas

lemma seqStarts_nil_of_ne (sep : List Char) (h : sep ≠ []) : seqStarts sep [] = false := by
  cases sep with
  | nil => exact absurd rfl h
  | cons a as => rfl

lemma seqStarts_self_append (sep v : List Char) : seqStarts sep (sep ++ v) = true := by
  induction sep with
  | nil => rfl
  | cons a as ih => simp [seqStarts, ih]

lemma seqStarts_getElem? (sep w : List Char) (h : seqStarts sep w = true) :
    ∀ j, j < sep.length → w[j]? = sep[j]? := by
  induction sep generalizing w with
  | nil => intro j hj; simp at hj
  | cons a as ih =>
    cases w with
    | nil => simp [seqStarts] at h
    | cons b bs =>
      simp only [seqStarts, Bool.and_eq_true, decide_eq_true_eq] at h
      intro j hj
      cases j with
      | zero => simp [h.1]
      | succ j' =>
        simp only [List.getElem?_cons_succ]
        exact ih bs h.2 j' (Nat.lt_of_succ_lt_succ hj)

lemma seqStarts_append_of_le (sep u v : List Char) (h : sep.length ≤ u.length) :
    seqStarts sep (u ++ v) = seqStarts sep u := by
  induction sep generalizing u with
  | nil => rfl
  | cons a as ih =>
    cases u with
    | nil => simp at h
    | cons b bs =>
      simp only [List.cons_append, seqStarts, List.append_eq]
      rw [ih bs (Nat.le_of_succ_le_succ h)]

lemma findSplit_none_drop (sep xs : List Char) (h : findSplit sep xs = none) :
    ∀ i, seqStarts sep (xs.drop i) = false := by
  induction xs with
  | nil =>
    intro i
    simp only [findSplit] at h
    split at h
    · exact absurd h (by simp)
    · simpa using ‹¬ seqStarts sep [] = true›
  | cons c rest ih =>
    intro i
    simp only [findSplit] at h
    split at h
    · exact absurd h (by simp)
    · cases i with
      | zero =>
        simpa using ‹¬ seqStarts sep (c :: rest) = true›
      | succ i' =>
        simp only [List.drop_succ_cons]
        exact ih (by simpa using h) i'

lemma findSplit_of_first (sep p r : List Char) (hsep : sep ≠ [])
    (h : ∀ i, i < p.length → seqStarts sep ((p ++ (sep ++ r)).drop i) = false) :
    findSplit sep (p ++ (sep ++ r)) = some (p, r) := by
  induction p with
  | nil =>
    cases sep with
    | nil => exact absurd rfl hsep
    | cons d ds =>
      have hs : seqStarts (d :: ds) (d :: (ds ++ r)) = true := seqStarts_self_append (d :: ds) r
      have hdrop : (d :: (ds ++ r)).drop (d :: ds).length = r := by
        rw [← List.cons_append]
        exact List.drop_left _ _
      show findSplit (d :: ds) (d :: (ds ++ r)) = some ([], r)
      simp [findSplit, hs, hdrop]
  | cons c p' ih =>
    have h0 : seqStarts sep (c :: (p' ++ (sep ++ r))) = false := by
      have := h 0 (by simp)
      simpa using this
    have hrest := ih (fun i hi => by
      simpa using h (i + 1) (by simpa using Nat.succ_lt_succ hi))
    show findSplit sep (c :: (p' ++ (sep ++ r))) = some (c :: p', r)
    simp [findSplit, h0, hrest]

lemma delim_length : delim.length = 50 := by simp [delim]

lemma delim_ne_nil : delim ≠ [] := by decide

lemma delim_getElem? (j : Nat) (hj : j < 50) : delim[j]? = some '=' := by
  unfold delim
  rw [List.getElem?_replicate]
  simp [hj]

lemma seqStarts_delim_newline (t : List Char) : seqStarts delim ('\n' :: t) = false := by
  have : delim = '=' :: List.replicate 49 '=' := by decide
  rw [this]
  simp [seqStarts]

/-- No occurrence of the delimiter starts strictly inside `base ++ "\n\n"` when
`base` itself does not contain the delimiter. -/
lemma no_early_delim (base r : List Char) (hb : findSplit delim base = none) :
    ∀ i, i < (base ++ ps "\n\n").length →
      seqStarts delim (((base ++ ps "\n\n") ++ (delim ++ r)).drop i) = false := by
  intro i hi
  have hlen : (base ++ ps "\n\n").length = base.length + 2 := by simp [ps]
  have hile : i ≤ (base ++ ps "\n\n").length := Nat.le_of_lt hi
  rw [List.drop_append_of_le_length hile]
  by_cases hib : i < base.length
  · -- the drop starts inside `base`
    have hible : i ≤ base.length := Nat.le_of_lt hib
    have hdrop : (base ++ ps "\n\n").drop i = base.drop i ++ ps "\n\n" :=
      List.drop_append_of_le_length hible
    rw [hdrop, List.append_assoc]
    by_cases hfifty : 50 ≤ base.length - i
    · -- window fits inside `base`: an occurrence there contradicts `hb`
      have hlen2 : delim.length ≤ (base.drop i).length := by
        rw [delim_length, List.length_drop]; exact hfifty
      rw [seqStarts_append_of_le _ _ _ hlen2]
      exact findSplit_none_drop delim base hb i
    · -- window reaches the first newline after `base`
      push_neg at hfifty
      by_contra hcon
      rw [Bool.not_eq_false] at hcon
      have hj : base.length - i < delim.length := by rw [delim_length]; exact hfifty
      have := seqStarts_getElem? delim _ hcon (base.length - i) hj
      have hdl : delim[base.length - i]? = some '=' := delim_getElem? _ hfifty
      have hlhs : (base.drop i ++ (ps "\n\n" ++ (delim ++ r)))[base.length - i]? =
          some '\n' := by
        have hdroplen : (base.drop i).length = base.length - i := List.length_drop i base
        rw [List.getElem?_append_right (by rw [hdroplen])]
        rw [hdroplen, Nat.sub_self]
        rfl
      rw [hlhs, hdl] at this
      simp at this
  · -- the drop starts inside the trailing `"\n\n"`
    push_neg at hib
    have hcases : i = base.length ∨ i = base.length + 1 := by omega
    have hdrop2 : ∀ k, (base ++ ps "\n\n").drop (base.length + k) = (ps "\n\n").drop k := by
      intro k
      rw [← List.drop_drop, List.drop_left]
    rcases hcases with hc | hc
    · have := hdrop2 0
      rw [Nat.add_zero] at this
      rw [hc, this]
      exact seqStarts_delim_newline _
    · rw [hc, hdrop2 1]
      exact seqStarts_delim_newline _

lemma rstrip_length_le (u : List Char) : (rstrip u).length ≤ u.length := by
  unfold rstrip
  rw [List.length_reverse]
  calc (u.reverse.dropWhile isPySpace).length ≤ u.reverse.length :=
        (List.dropWhile_suffix _).length_le
    _ = u.length := List.length_reverse u

lemma strip_fix_parts (b : List Char) (h : pyStrip b = b) :
    lstrip b = b ∧ rstrip b = b := by
  have h1 : (lstrip b).length ≤ b.length := (List.dropWhile_suffix _).length_le
  have h2 : (rstrip (lstrip b)).length ≤ (lstrip b).length := rstrip_length_le _
  have h3 : (pyStrip b).length = b.length := by rw [h]
  unfold pyStrip at h3
  have h4 : (lstrip b).length = b.length := Nat.le_antisymm h1 (by omega)
  have h5 : lstrip b = b := (List.dropWhile_suffix _).eq_of_length h4
  refine ⟨h5, ?_⟩
  have := h
  unfold pyStrip at this
  rwa [h5] at this

lemma lstrip_append_of_head (c : Char) (bs v : List Char) (h : isPySpace c = false) :
    lstrip ((c :: bs) ++ v) = (c :: bs) ++ v := by
  simp [lstrip, List.dropWhile, h]

lemma lstrip_fix_head (c : Char) (bs : List Char) (h : lstrip (c :: bs) = c :: bs) :
    isPySpace c = false := by
  by_contra hcon
  rw [Bool.not_eq_false] at hcon
  simp only [lstrip, List.dropWhile, hcon] at h
  have := congrArg List.length h
  have hle : (bs.dropWhile isPySpace).length ≤ bs.length :=
    (List.dropWhile_suffix _).length_le
  simp at this
  omega

lemma rstrip_append_nn (b : List Char) : rstrip (b ++ ps "\n\n") = rstrip b := by
  unfold rstrip
  have : (b ++ ps "\n\n").reverse = '\n' :: '\n' :: b.reverse := by
    simp [ps]
  rw [this]
  have hnl : isPySpace '\n' = true := by decide
  simp [List.dropWhile, hnl]

lemma pyStrip_append_nn (b : List Char) (h : pyStrip b = b) :
    pyStrip (b ++ ps "\n\n") = b := by
  cases b with
  | nil => decide
  | cons c bs =>
    obtain ⟨hl, hr⟩ := strip_fix_parts _ h
    have hc : isPySpace c = false := lstrip_fix_head c bs hl
    unfold pyStrip
    rw [lstrip_append_of_head c bs _ hc, rstrip_append_nn, hr]

end TextLemmas

/-- C3 counterexample: the claim quantifies over every base text that does not
contain the delimiter, but the extraction step strips whitespace, so a base
with a leading space (here `" a"`) is not returned intact when at least one
snippet is present. -/
theorem C3_counterexample :
    findSplit delim (ps " a") = none ∧
    extract_base_context
        (build_enhanced_context [⟨ps "snippet_1_x", ps "content", [], none, ps "date"⟩]
          (ps " a")) ≠ ps " a" := by
  decide

/-- C3 (amended): for every base text that does not contain the
fifty-equals-signs delimiter sequence and has no leading or trailing
whitespace (it equals its own strip), and every snippet list, including the
empty list, extracting the base from the composed context returns exactly the
original base text. -/
theorem C3_compose_extract_roundtrip (base : List Char) (snippets : List Snippet)
    (hnd : findSplit delim base = none) (hstrip : pyStrip base = base) :
    extract_base_context (build_enhanced_context snippets base) = base := by
  by_cases hs : snippets = []
  · simp [build_enhanced_context, hs, extract_base_context, hnd]
  · have hbuild : build_enhanced_context snippets base =
        (base ++ ps "\n\n") ++
          (delim ++ (ps "\n" ++ (ps "RESEARCH INSIGHTS & SNIPPETS\n" ++
            (delim ++ (ps "\n\n" ++ (snippets.map snippetLines).flatten))))) := by
      simp only [build_enhanced_context, if_neg hs]
      simp [List.append_assoc]
    have hfound := findSplit_of_first delim (base ++ ps "\n\n")
      (ps "\n" ++ (ps "RESEARCH INSIGHTS & SNIPPETS\n" ++
        (delim ++ (ps "\n\n" ++ (snippets.map snippetLines).flatten))))
      delim_ne_nil (no_early_delim base _ hnd)
    rw [hbuild]
    simp only [extract_base_context, hfound]
    exact pyStrip_append_nn base hstrip

/-- C3 witness: the round trip on a concrete delimiter-free, stripped base and
one concrete snippet. -/
theorem C3_witness :
    findSplit delim (ps "quantum computing") = none ∧
    pyStrip (ps "quantum computing") = ps "quantum computing" ∧
    extract_base_context
        (build_enhanced_context [⟨ps "snippet_1_x", ps "error correction", ps "paper A", none, ps "date"⟩]
          (ps "quantum computing")) = ps "quantum computing" :=
  ⟨by decide, by decide,
    C3_compose_extract_roundtrip _ _ (by decide) (by decide)⟩

/-- C2: scoring a paper with no context embedding, and recalculating all
relevance scores with no context embedding, both raise a `ValueError` to the
caller; neither returns a defaulted score. -/
theorem C2_no_context_is_error (encode : List Char → Except PyErr (List ℝ))
    (ct : Option (List Char)) (ss : List Snippet)
    (title abstract notes now : List Char) (papers : List Paper) :
    check_paper_relevance ⟨encode, none, ct, ss⟩ title abstract notes
      = .error (.valueError "Research context not loaded. Call load_research_context() first.")
    ∧ recalculate_all_relevance_scores ⟨encode, none, ct, ss⟩ now papers
      = .error (.valueError "No research context loaded. Please load context first.") :=
  ⟨rfl, rfl⟩

/-- C7 counterexample: blank content (a single space) is not rejected by
`add_context_snippet`: the call succeeds and the blank snippet is appended. -/
theorem C7_counterexample :
    pyStrip (ps " ") = [] ∧
    (add_context_snippet ⟨okOneEncoder, none, none, []⟩ (ps " ") [] none
        (ps "20240101_120000") (ps "2024-01-01T12:00:00")).toOption.map
      (fun r => r.2.context_snippets.map Snippet.content) = some [ps " "] :=
  ⟨by decide, rfl⟩

/-- C7 (amended): `add_context_snippet` performs no blank-content validation;
content that is blank after trimming is appended as a snippet exactly like any
other content (blank input is instead filtered out by the CLI callers before
this method is invoked). -/
theorem C7_blank_snippet_appended (ch : Checker) (content source : List Char)
    (pid : Option (List Char)) (now iso : List Char)
    (_hblank : pyStrip content = []) :
    (exState (add_context_snippet ch content source pid now iso)).context_snippets
      = ch.context_snippets ++
        [⟨ps "snippet_" ++ (Nat.repr (ch.context_snippets.length + 1)).data ++ ps "_" ++ now,
          content, source, pid, iso⟩] := by
  clear _hblank
  unfold add_context_snippet
  dsimp only
  split
  · split <;> rfl
  · rfl

/-- C7 witness: appending a concrete blank snippet to an empty checker. -/
theorem C7_witness :
    pyStrip (ps "  ") = [] ∧
    (exState (add_context_snippet ⟨okOneEncoder, none, none, []⟩ (ps "  ") (ps "src") none
        (ps "ts") (ps "iso"))).context_snippets
      = [⟨ps "snippet_1_ts", ps "  ", ps "src", none, ps "iso"⟩] :=
  ⟨by decide,
    C7_blank_snippet_appended ⟨okOneEncoder, none, none, []⟩ (ps "  ") (ps "src") none
      (ps "ts") (ps "iso") (by decide)⟩

/-- C8: with a loaded context and an encoder that raises, `add_context_snippet`
propagates the error but has already committed partial state: the snippet list
and the composed context text are updated while the context embedding is left
stale, contradicting the specified no-partial-state propagation policy. -/
theorem C8_stale_embedding_on_encode_failure :
    add_context_snippet chC8 (ps "new insight") (ps "src") none (ps "ts") (ps "iso")
      = .error (.encodeFailure "model crashed",
          { chC8 with
              context_snippets := [⟨ps "snippet_1_ts", ps "new insight", ps "src", none, ps "iso"⟩]
              context_text := some (build_enhanced_context
                [⟨ps "snippet_1_ts", ps "new insight", ps "src", none, ps "iso"⟩]
                (ps "my research context")) })
    ∧ some (build_enhanced_context
        [⟨ps "snippet_1_ts", ps "new insight", ps "src", none, ps "iso"⟩]
        (ps "my research context")) ≠ chC8.context_text
    ∧ ((exState (add_context_snippet chC8 (ps "new insight") (ps "src") none
        (ps "ts") (ps "iso"))).context_snippets ≠ chC8.context_snippets
    ∧ (exState (add_context_snippet chC8 (ps "new insight") (ps "src") none
        (ps "ts") (ps "iso"))).context_embedding = chC8.context_embedding) :=
  ⟨rfl, by decide, by decide, rfl⟩

/-- C9 counterexample: removing a snippet whose id is present while no context
text is loaded returns `true` and removes the snippet, but neither recomposes
the context text nor recomputes the embedding — both stay `none`. -/
theorem C9_counterexample :
    (remove_context_snippet ⟨okOneEncoder, none, none, [snipA]⟩
        (ps "snippet_1_x")).toOption.map
      (fun r => (r.1, r.2.context_snippets, r.2.context_text,
        r.2.context_embedding.isSome)) = some (true, [], none, false) :=
  rfl

lemma removeFirstSnippet_of_not_mem (l : List Snippet) (sid : List Char)
    (h : ∀ s ∈ l, s.id ≠ sid) : removeFirstSnippet l sid = none := by
  induction l with
  | nil => rfl
  | cons s rest ih =>
    have hs : s.id ≠ sid := h s (List.mem_cons_self s rest)
    simp only [removeFirstSnippet, if_neg hs]
    rw [ih (fun q hq => h q (List.mem_cons_of_mem s hq))]
    rfl

lemma removeFirstSnippet_of_found (pre post : List Snippet) (snip : Snippet)
    (sid : List Char) (hid : snip.id = sid) (hpre : ∀ q ∈ pre, q.id ≠ sid) :
    removeFirstSnippet (pre ++ snip :: post) sid = some (pre ++ post) := by
  induction pre with
  | nil => simp [removeFirstSnippet, hid]
  | cons q pre' ih =>
    have hq : q.id ≠ sid := hpre q (List.mem_cons_self q pre')
    simp only [List.cons_append, removeFirstSnippet, if_neg hq, List.append_eq]
    rw [ih (fun q' hq' => hpre q' (List.mem_cons_of_mem q hq'))]
    rfl

/-- C9 (amended): `remove_context_snippet` with an unknown snippet id returns
`false` and leaves the whole checker state unchanged; with a present id it
removes the first matching snippet and returns `true`, and — provided a
context text is loaded — it also recomposes the context text and recomputes
the context embedding, while with no loaded context only the removal itself
happens. -/
theorem C9_remove_snippet (ch : Checker) (sid : List Char) :
    ((∀ s ∈ ch.context_snippets, s.id ≠ sid) →
      remove_context_snippet ch sid = .ok (false, ch))
    ∧ (∀ pre snip post emb, ch.context_snippets = pre ++ snip :: post →
        snip.id = sid → (∀ q ∈ pre, q.id ≠ sid) →
        optTruthy ch.context_text = true →
        ch.encode (build_enhanced_context (pre ++ post)
            (extract_base_context (ch.context_text.getD []))) = .ok emb →
        remove_context_snippet ch sid
          = .ok (true, { ch with
              context_snippets := pre ++ post,
              context_text := some (build_enhanced_context (pre ++ post)
                (extract_base_context (ch.context_text.getD []))),
              context_embedding := some emb }))
    ∧ (∀ pre snip post, ch.context_snippets = pre ++ snip :: post →
        snip.id = sid → (∀ q ∈ pre, q.id ≠ sid) →
        optTruthy ch.context_text = false →
        remove_context_snippet ch sid
          = .ok (true, { ch with context_snippets := pre ++ post })) := by
  refine ⟨?_, ?_, ?_⟩
  · intro h
    unfold remove_context_snippet
    rw [removeFirstSnippet_of_not_mem _ _ h]
  · intro pre snip post emb hsplit hid hpre htruthy henc
    unfold remove_context_snippet
    rw [hsplit, removeFirstSnippet_of_found pre post snip sid hid hpre]
    dsimp only
    rw [if_pos htruthy, henc]
  · intro pre snip post hsplit hid hpre htruthy
    unfold remove_context_snippet
    rw [hsplit, removeFirstSnippet_of_found pre post snip sid hid hpre]
    dsimp only
    rw [if_neg (by rw [htruthy]; exact Bool.false_ne_true)]

/-- C9 witness: removing the first snippet of `chC9` (loaded context, total
encoder) removes it, recomposes the text and stores the fresh embedding. -/
theorem C9_witness :
    remove_context_snippet chC9 (ps "snippet_1_x")
      = .ok (true, { chC9 with
          context_snippets := [snipB],
          context_text := some (build_enhanced_context [snipB]
            (extract_base_context ((chC9.context_text).getD []))),
          context_embedding := some [(1 : ℝ)] }) :=
  (C9_remove_snippet chC9 (ps "snippet_1_x")).2.1 [] snipA [snipB] [(1 : ℝ)]
    rfl rfl (by simp) rfl rfl

lemma delete_paper_sublist (papers : List Paper) (pid : List Char) :
    (delete_paper papers pid).2.Sublist papers := by
  induction papers with
  | nil => exact List.Sublist.refl _
  | cons p rest ih =>
    simp only [delete_paper]
    split
    · exact List.sublist_cons_self p rest
    · exact ih.cons₂ p

lemma runOps_ids_nodup_aux (ops : List StorageOp) :
    ∀ (st : List Paper) (done : List (List Char)),
    (∀ p ∈ st, ∃ pre t, p.id = pre ++ t ∧ t.length = 15 ∧ t ∈ done) →
    (st.map Paper.id).Nodup →
    (addTimestamps ops).Nodup →
    (∀ t ∈ addTimestamps ops, t.length = 15) →
    (∀ t ∈ addTimestamps ops, t ∉ done) →
    ((runOps ops st).map Paper.id).Nodup := by
  induction ops with
  | nil => intro st done _ h2 _ _ _; exact h2
  | cons op rest ih =>
    intro st done h1 h2 h3 h4 h5
    cases op with
    | del pid =>
      simp only [runOps]
      simp only [addTimestamps] at h3 h4 h5
      refine ih (delete_paper st pid).2 done ?_ ?_ h3 h4 h5
      · intro p hp
        exact h1 p ((delete_paper_sublist st pid).subset hp)
      · exact h2.sublist ((delete_paper_sublist st pid).map Paper.id)
    | add t a sc cat emb now iso =>
      simp only [runOps, add_paper]
      simp only [addTimestamps] at h3 h4 h5
      have hnow15 : now.length = 15 := h4 now (List.mem_cons_self _ _)
      have hnowdone : now ∉ done := h5 now (List.mem_cons_self _ _)
      have hnodup_rest := (List.nodup_cons.mp h3).2
      have hnow_rest : now ∉ addTimestamps rest := (List.nodup_cons.mp h3).1
      refine ih _ (now :: done) ?_ ?_ hnodup_rest
        (fun u hu => h4 u (List.mem_cons_of_mem _ hu)) ?_
      · intro p hp
        rcases List.mem_append.mp hp with hmem | hnew
        · obtain ⟨pre, u, hid, hu15, hudone⟩ := h1 p hmem
          exact ⟨pre, u, hid, hu15, List.mem_cons_of_mem _ hudone⟩
        · rcases List.mem_singleton.mp hnew with rfl
          exact ⟨ps "paper_" ++ (Nat.repr (st.length + 1)).data ++ ps "_", now, rfl,
            hnow15, List.mem_cons_self _ _⟩
      · rw [List.map_append]
        rw [List.nodup_append]
        refine ⟨h2, List.nodup_singleton _, ?_⟩
        intro x hx hx2
        simp only [List.map_cons, List.map_nil, List.mem_singleton] at hx2
        rcases List.mem_map.mp hx with ⟨p, hpmem, rfl⟩
        obtain ⟨pre, u, hid, hu15, hudone⟩ := h1 p hpmem
        have hcollide : pre ++ u =
            ps "paper_" ++ (Nat.repr (st.length + 1)).data ++ ps "_" ++ now := by
          rw [← hid]
          exact hx2
        have heq := List.append_inj' hcollide (by rw [hu15, hnow15])
        exact hnowdone (heq.2 ▸ hudone)
      · intro u hu humem
        rcases List.mem_cons.mp humem with heqnow | hdone
        · exact hnow_rest (heqnow ▸ hu)
        · exact h5 u (List.mem_cons_of_mem _ hu) hdone

/-- C10 counterexample: two `add_paper` calls in the same second (equal
timestamp strings), a deletion of the first paper, and a third add in that
same second produce two stored papers with the same id
`paper_2_20240101_120000`, because the id counter is the current list length
plus one. -/
theorem C10_counterexample :
    ¬ ((runOps
        [.add (ps "Paper One") (ps "abstract one") 50 "Somewhat Relevant" none
           (ps "20240101_120000") (ps "isoA"),
         .add (ps "Paper Two") (ps "abstract two") 50 "Somewhat Relevant" none
           (ps "20240101_120000") (ps "isoB"),
         .del (ps "paper_1_20240101_120000"),
         .add (ps "Paper Three") (ps "abstract three") 50 "Somewhat Relevant" none
           (ps "20240101_120000") (ps "isoC")]
        []).map Paper.id).Nodup := by
  decide

/-- C10 (amended): every sequence of `add_paper` and `delete_paper` operations
starting from empty storage preserves pairwise-distinct paper ids, provided
the generation timestamps of the add operations are pairwise distinct (they
are second-resolution `strftime` strings of the fixed length 15, so two adds
within the same second violate the proviso and can collide after a
deletion). -/
theorem C10_unique_ids (ops : List StorageOp)
    (hnodup : (addTimestamps ops).Nodup)
    (hlen : ∀ t ∈ addTimestamps ops, t.length = 15) :
    ((runOps ops []).map Paper.id).Nodup :=
  runOps_ids_nodup_aux ops [] [] (by simp) (by simp) hnodup hlen (by simp)

/-- C10 witness: a concrete add/delete/add sequence with distinct timestamps
keeps all ids distinct. -/
theorem C10_witness :
    (addTimestamps
        [.add (ps "Paper One") (ps "abstract one") 50 "Somewhat Relevant" none
           (ps "20240101_120000") (ps "isoA"),
         .add (ps "Paper Two") (ps "abstract two") 50 "Somewhat Relevant" none
           (ps "20240101_120001") (ps "isoB"),
         .del (ps "paper_1_20240101_120000"),
         .add (ps "Paper Three") (ps "abstract three") 50 "Somewhat Relevant" none
           (ps "20240101_120002") (ps "isoC")]).Nodup
    ∧ ((runOps
        [.add (ps "Paper One") (ps "abstract one") 50 "Somewhat Relevant" none
           (ps "20240101_120000") (ps "isoA"),
         .add (ps "Paper Two") (ps "abstract two") 50 "Somewhat Relevant" none
           (ps "20240101_120001") (ps "isoB"),
         .del (ps "paper_1_20240101_120000"),
         .add (ps "Paper Three") (ps "abstract three") 50 "Somewhat Relevant" none
           (ps "20240101_120002") (ps "isoC")]
        []).map Paper.id).Nodup :=
  ⟨by decide, C10_unique_ids _ (by decide) (by decide)⟩

lemma norm2_single (x : ℝ) (hx : x * x = 1) : norm2 [x] = 1 := by
  simp [norm2, hx]

lemma cosineSimilarity_one_negone : cosineSimilarity [(1 : ℝ)] [(-1 : ℝ)] = -1 := by
  have h1 : norm2 [(1 : ℝ)] = 1 := norm2_single 1 (by norm_num)
  have h2 : norm2 [(-1 : ℝ)] = 1 := norm2_single (-1) (by norm_num)
  simp [cosineSimilarity, h1, h2, dotL]

/-- C1: the relevance score returned by `check_paper_relevance` is exactly the
cosine similarity between the context embedding and the paper embedding
multiplied by 100, with no clamping; in particular a negative similarity
(outside `[0,1]`) produces a negative score (outside `[0,100]`), exhibited by
a context embedding `[1]` and a paper embedding `[-1]`. -/
theorem C1_score_is_unclamped_cosine :
    (∀ (encode : List Char → Except PyErr (List ℝ)) (ce : List ℝ)
        (ct : Option (List Char)) (ss : List Snippet) (title abstract notes : List Char),
      (check_paper_relevance ⟨encode, some ce, ct, ss⟩ title abstract notes).map
          RelevanceResult.relevance_score
        = (encode (paperText title abstract notes)).map
            (fun emb => cosineSimilarity ce emb * 100))
    ∧ (∀ (ct : Option (List Char)) (ss : List Snippet) (title abstract notes : List Char),
        ∃ r, check_paper_relevance ⟨fun _ => .ok [(-1 : ℝ)], some [(1 : ℝ)], ct, ss⟩
            title abstract notes = .ok r
          ∧ r.relevance_score = cosineSimilarity [(1 : ℝ)] [(-1 : ℝ)] * 100
          ∧ cosineSimilarity [(1 : ℝ)] [(-1 : ℝ)] < 0
          ∧ r.relevance_score < 0) := by
  constructor
  · intro encode ce ct ss title abstract notes
    unfold check_paper_relevance create_paper_embedding_with_notes
    cases h : encode (paperText title abstract notes) <;> simp [h, Except.map]
  · intro ct ss title abstract notes
    have hcos : cosineSimilarity [(1 : ℝ)] [(-1 : ℝ)] = -1 := cosineSimilarity_one_negone
    have h100 : cosineSimilarity [(1 : ℝ)] [(-1 : ℝ)] * 100 = -100 := by
      rw [hcos]; norm_num
    refine ⟨{ relevance_score := cosineSimilarity [(1 : ℝ)] [(-1 : ℝ)] * 100,
              category := "Low Relevance", title := title,
              abstract_length := abstract.length,
              notes_included := !(pyStrip notes).isEmpty }, ?_, rfl, ?_, ?_⟩
    · unfold check_paper_relevance create_paper_embedding_with_notes
      dsimp only
      rw [h100]
      rw [if_neg (by norm_num), if_neg (by norm_num), if_neg (by norm_num)]
    · rw [hcos]; norm_num
    · rw [h100]; norm_num

lemma cosineSimilarity_one_one : cosineSimilarity [(1 : ℝ)] [(1 : ℝ)] = 1 := by
  have h1 : norm2 [(1 : ℝ)] = 1 := norm2_single 1 (by norm_num)
  simp [cosineSimilarity, h1, dotL]

lemma check_paper_relevance_of_ok (encode : List Char → Except PyErr (List ℝ))
    (ce : List ℝ) (ct : Option (List Char)) (ss : List Snippet)
    (title abstract notes : List Char) (emb : List ℝ)
    (henc : encode (paperText title abstract notes) = .ok emb) :
    check_paper_relevance ⟨encode, some ce, ct, ss⟩ title abstract notes
      = .ok { relevance_score := cosineSimilarity ce emb * 100,
              category :=
                if cosineSimilarity ce emb * 100 ≥ 85 then "Highly Relevant"
                else if cosineSimilarity ce emb * 100 ≥ 65 then "Moderately Relevant"
                else if cosineSimilarity ce emb * 100 ≥ 45 then "Somewhat Relevant"
                else "Low Relevance",
              title := title, abstract_length := abstract.length,
              notes_included := !(pyStrip notes).isEmpty } := by
  unfold check_paper_relevance create_paper_embedding_with_notes
  dsimp only
  rw [henc]

lemma check_paper_relevance_of_error (encode : List Char → Except PyErr (List ℝ))
    (ce : List ℝ) (ct : Option (List Char)) (ss : List Snippet)
    (title abstract notes : List Char) (e : PyErr)
    (henc : encode (paperText title abstract notes) = .error e) :
    check_paper_relevance ⟨encode, some ce, ct, ss⟩ title abstract notes = .error e := by
  unfold check_paper_relevance create_paper_embedding_with_notes
  dsimp only
  rw [henc]

lemma checkC4_a : check_paper_relevance chC4 (ps "t") (ps "a") []
    = .ok ⟨100, "Highly Relevant", ps "t", 1, false⟩ := by
  have h := check_paper_relevance_of_ok mixedEncoder [(1 : ℝ)] none []
    (ps "t") (ps "a") [] [(1 : ℝ)] rfl
  show check_paper_relevance ⟨mixedEncoder, some [(1 : ℝ)], none, []⟩ (ps "t") (ps "a") []
    = .ok ⟨100, "Highly Relevant", ps "t", 1, false⟩
  rw [h]
  have hs : cosineSimilarity [(1 : ℝ)] [(1 : ℝ)] * 100 = 100 := by
    rw [cosineSimilarity_one_one]; norm_num
  rw [hs, if_pos (by norm_num : (100 : ℝ) ≥ 85)]
  rfl

lemma checkC4_b : check_paper_relevance chC4 (ps "a long paper title") (ps "another abstract") []
    = .error (.encodeFailure "boom") := by
  have h := check_paper_relevance_of_error mixedEncoder [(1 : ℝ)] none []
    (ps "a long paper title") (ps "another abstract") [] (.encodeFailure "boom") rfl
  exact h

lemma recalcLoop_spec (ch : Checker) (now : List Char) (papers : List Paper) :
    (recalcLoop ch now papers).1.1 = papers.countP (recalcUpdated ch)
    ∧ (recalcLoop ch now papers).1.2.1 = papers.countP (recalcUnchanged ch)
    ∧ (recalcLoop ch now papers).1.2.2 = papers.countP (recalcFails ch)
    ∧ List.Forall₂ (fun p p' =>
        match check_paper_relevance ch p.title p.abstract [] with
        | .error _ => p' = p
        | .ok r => p' = { p with
            relevance_score := r.relevance_score,
            category := r.category,
            recalculated_date := some now })
      papers (recalcLoop ch now papers).2 := by
  induction papers with
  | nil => exact ⟨rfl, rfl, rfl, List.Forall₂.nil⟩
  | cons p rest ih =>
    obtain ⟨ihu, ihn, ihe, ihf⟩ := ih
    cases hc : check_paper_relevance ch p.title p.abstract [] with
    | error e =>
      have hupd : recalcUpdated ch p = false := by simp [recalcUpdated, hc]
      have hunc : recalcUnchanged ch p = false := by simp [recalcUnchanged, hc]
      have hfail : recalcFails ch p = true := by simp [recalcFails, hc]
      refine ⟨?_, ?_, ?_, ?_⟩
      · simp only [recalcLoop, hc]
        simp [List.countP_cons, hupd, ihu]
      · simp only [recalcLoop, hc]
        simp [List.countP_cons, hunc, ihn]
      · simp only [recalcLoop, hc]
        simp [List.countP_cons, hfail, ihe]
      · simp only [recalcLoop, hc]
        exact List.Forall₂.cons (by rw [hc]) ihf
    | ok res =>
      have hfail : recalcFails ch p = false := by simp [recalcFails, hc]
      refine ⟨?_, ?_, ?_, ?_⟩
      · simp only [recalcLoop, hc]
        by_cases hcond : 1 < |res.relevance_score - p.relevance_score| <;>
          simp [List.countP_cons, recalcUpdated, hc, hcond, ihu]
      · simp only [recalcLoop, hc]
        by_cases hcond : 1 < |res.relevance_score - p.relevance_score| <;>
          simp [List.countP_cons, recalcUnchanged, hc, hcond, ihn]
      · simp only [recalcLoop, hc]
        simp [List.countP_cons, hfail, ihe]
      · simp only [recalcLoop, hc]
        exact List.Forall₂.cons (by rw [hc]) ihf

/-- C4: when the context embedding is loaded, `recalculate_all_relevance_scores`
returns successfully even when individual papers raise: the error count is the
number of failing papers, total is the list length, a successfully re-scored
paper counts as updated exactly when its absolute score change exceeds 1.0 and
as unchanged otherwise, and every paper keeps its status field. -/
theorem C4_recalculate_batch_isolation (ch : Checker) (now : List Char)
    (papers papers' : List Paper) (stats : RecalcStats)
    (h : recalculate_all_relevance_scores ch now papers = .ok (stats, papers')) :
    stats.total_papers = papers.length
    ∧ stats.error_papers = papers.countP (recalcFails ch)
    ∧ stats.updated_papers = papers.countP (recalcUpdated ch)
    ∧ stats.unchanged_papers = papers.countP (recalcUnchanged ch)
    ∧ List.Forall₂ (fun p p' => p'.status = p.status) papers papers' := by
  cases hce : ch.context_embedding with
  | none =>
    unfold recalculate_all_relevance_scores at h
    rw [hce] at h
    exact absurd h (by simp)
  | some ce =>
    unfold recalculate_all_relevance_scores at h
    rw [hce] at h
    dsimp only at h
    rw [Except.ok.injEq, Prod.mk.injEq] at h
    obtain ⟨hstats, hp⟩ := h
    obtain ⟨hu, hn, he, hf⟩ := recalcLoop_spec ch now papers
    subst hp
    refine ⟨?_, ?_, ?_, ?_, ?_⟩
    · rw [← hstats]
    · rw [← hstats]; exact he
    · rw [← hstats]; exact hu
    · rw [← hstats]; exact hn
    · refine List.Forall₂.imp ?_ hf
      intro a b hab
      cases hcheck : check_paper_relevance ch a.title a.abstract [] with
      | error e => rw [hcheck] at hab; rw [hab]
      | ok r => rw [hcheck] at hab; rw [hab]

/-- C4 witness: a two-paper batch where the second paper raises while the
first changes score by more than 1.0 reports one update, no unchanged, one
error, total two, and both papers keep their status. -/
theorem C4_witness :
    recalculate_all_relevance_scores chC4 (ps "now") [pC4a, pC4b]
      = .ok (⟨2, 1, 0, 1⟩,
          [⟨ps "paper_1_x", ps "t", ps "a", 100, "Highly Relevant", ps "iso", 1,
             ps "to read", [], none, none, none, some (ps "now"), none⟩, pC4b])
    ∧ ((⟨2, 1, 0, 1⟩ : RecalcStats).total_papers = ([pC4a, pC4b] : List Paper).length
    ∧ (⟨2, 1, 0, 1⟩ : RecalcStats).error_papers = [pC4a, pC4b].countP (recalcFails chC4)
    ∧ (⟨2, 1, 0, 1⟩ : RecalcStats).updated_papers = [pC4a, pC4b].countP (recalcUpdated chC4)
    ∧ (⟨2, 1, 0, 1⟩ : RecalcStats).unchanged_papers
        = [pC4a, pC4b].countP (recalcUnchanged chC4)
    ∧ List.Forall₂ (fun p p' => p'.status = p.status) [pC4a, pC4b]
        [⟨ps "paper_1_x", ps "t", ps "a", 100, "Highly Relevant", ps "iso", 1,
           ps "to read", [], none, none, none, some (ps "now"), none⟩, pC4b]) := by
  have hcond : (1 : ℝ) < |100 - pC4a.relevance_score| := by
    rw [show pC4a.relevance_score = (0 : ℝ) from rfl]
    norm_num
  have hLoop : recalcLoop chC4 (ps "now") [pC4a, pC4b]
      = ((1, 0, 1),
          [⟨ps "paper_1_x", ps "t", ps "a", 100, "Highly Relevant", ps "iso", 1,
             ps "to read", [], none, none, none, some (ps "now"), none⟩, pC4b]) := by
    simp only [recalcLoop]
    rw [show pC4a.title = ps "t" from rfl, show pC4a.abstract = ps "a" from rfl,
      show pC4b.title = ps "a long paper title" from rfl,
      show pC4b.abstract = ps "another abstract" from rfl]
    rw [checkC4_a, checkC4_b]
    simp only [if_pos hcond]
    rfl
  have h : recalculate_all_relevance_scores chC4 (ps "now") [pC4a, pC4b]
      = .ok (⟨2, 1, 0, 1⟩,
          [⟨ps "paper_1_x", ps "t", ps "a", 100, "Highly Relevant", ps "iso", 1,
             ps "to read", [], none, none, none, some (ps "now"), none⟩, pC4b]) := by
    unfold recalculate_all_relevance_scores
    rw [show chC4.context_embedding = some [(1 : ℝ)] from rfl]
    dsimp only
    rw [hLoop]
    rfl
  exact ⟨h, C4_recalculate_batch_isolation chC4 (ps "now") _ _ _ h⟩

/-- C5 (amended): every paper successfully processed by
`recalculate_all_relevance_scores` gets the score and category of
`check_paper_relevance(title, abstract)` with the notes argument left at its
empty default — the stored notes are not passed — and a failing paper is left
unchanged. -/
theorem C5_recalculate_ignores_notes (ch : Checker) (now : List Char)
    (papers papers' : List Paper) (stats : RecalcStats)
    (h : recalculate_all_relevance_scores ch now papers = .ok (stats, papers')) :
    List.Forall₂ (fun p p' =>
      match check_paper_relevance ch p.title p.abstract [] with
      | .error _ => p' = p
      | .ok r => p'.relevance_score = r.relevance_score ∧ p'.category = r.category)
      papers papers' := by
  cases hce : ch.context_embedding with
  | none =>
    unfold recalculate_all_relevance_scores at h
    rw [hce] at h
    exact absurd h (by simp)
  | some ce =>
    unfold recalculate_all_relevance_scores at h
    rw [hce] at h
    dsimp only at h
    rw [Except.ok.injEq, Prod.mk.injEq] at h
    obtain ⟨hstats, hp⟩ := h
    subst hp
    refine List.Forall₂.imp ?_ (recalcLoop_spec ch now papers).2.2.2
    intro a b hab
    cases hcheck : check_paper_relevance ch a.title a.abstract [] with
    | error e => rw [hcheck] at hab; exact hab
    | ok r => rw [hcheck] at hab; rw [hab]; exact ⟨rfl, rfl⟩

lemma checkC5_nonotes : check_paper_relevance chC5 (ps "t") (ps "a") []
    = .ok ⟨100, "Highly Relevant", ps "t", 1, false⟩ := by
  have h := check_paper_relevance_of_ok boundedEncoder [(1 : ℝ)] none []
    (ps "t") (ps "a") [] [(1 : ℝ)] rfl
  show check_paper_relevance ⟨boundedEncoder, some [(1 : ℝ)], none, []⟩ (ps "t") (ps "a") []
    = .ok ⟨100, "Highly Relevant", ps "t", 1, false⟩
  rw [h]
  have hs : cosineSimilarity [(1 : ℝ)] [(1 : ℝ)] * 100 = 100 := by
    rw [cosineSimilarity_one_one]; norm_num
  rw [hs, if_pos (by norm_num : (100 : ℝ) ≥ 85)]
  rfl

lemma checkC5_notes : check_paper_relevance chC5 (ps "t") (ps "a") (ps "important")
    = .ok ⟨-100, "Low Relevance", ps "t", 1, true⟩ := by
  have h := check_paper_relevance_of_ok boundedEncoder [(1 : ℝ)] none []
    (ps "t") (ps "a") (ps "important") [(-1 : ℝ)] rfl
  show check_paper_relevance ⟨boundedEncoder, some [(1 : ℝ)], none, []⟩
      (ps "t") (ps "a") (ps "important")
    = .ok ⟨-100, "Low Relevance", ps "t", 1, true⟩
  rw [h]
  have hs : cosineSimilarity [(1 : ℝ)] [(-1 : ℝ)] * 100 = -100 := by
    rw [cosineSimilarity_one_negone]; norm_num
  rw [hs, if_neg (by norm_num : ¬ (-100 : ℝ) ≥ 85),
    if_neg (by norm_num : ¬ (-100 : ℝ) ≥ 65), if_neg (by norm_num : ¬ (-100 : ℝ) ≥ 45)]
  rfl

/-- C5 counterexample: for a stored paper with non-blank notes `"important"`,
recalculation stores the score of `check_paper_relevance(title, abstract)`
(here 100) while `check_paper_relevance(title, abstract, notes)` with the
stored notes returns -100, so the recomputed score does not equal the
notes-inclusive score. -/
theorem C5_counterexample :
    pyStrip paperC5.notes ≠ []
    ∧ recalculate_all_relevance_scores chC5 (ps "now") [paperC5]
        = .ok (⟨1, 0, 1, 0⟩,
            [⟨ps "paper_1_x", ps "t", ps "a", 100, "Highly Relevant", ps "iso", 1,
               ps "to read", ps "important", none, some true, none, some (ps "now"), none⟩])
    ∧ (check_paper_relevance chC5 paperC5.title paperC5.abstract paperC5.notes).map
        RelevanceResult.relevance_score = .ok (-100)
    ∧ (100 : ℝ) ≠ -100 := by
  refine ⟨by decide, ?_, ?_, by norm_num⟩
  · have hcond : ¬ (1 : ℝ) < |100 - paperC5.relevance_score| := by
      rw [show paperC5.relevance_score = (100 : ℝ) from rfl]
      norm_num
    have hLoop : recalcLoop chC5 (ps "now") [paperC5]
        = ((0, 1, 0),
            [⟨ps "paper_1_x", ps "t", ps "a", 100, "Highly Relevant", ps "iso", 1,
               ps "to read", ps "important", none, some true, none, some (ps "now"), none⟩]) := by
      simp only [recalcLoop]
      rw [show paperC5.title = ps "t" from rfl, show paperC5.abstract = ps "a" from rfl,
        checkC5_nonotes]
      simp only [if_neg hcond]
      rfl
    unfold recalculate_all_relevance_scores
    rw [show chC5.context_embedding = some [(1 : ℝ)] from rfl]
    dsimp only
    rw [hLoop]
    rfl
  · rw [show paperC5.title = ps "t" from rfl, show paperC5.abstract = ps "a" from rfl,
      show paperC5.notes = ps "important" from rfl, checkC5_notes]
    rfl

/-- C5 witness: the amended relation instantiated on the one-paper batch from
the counterexample input. -/
theorem C5_witness :
    recalculate_all_relevance_scores chC5 (ps "now") [paperC5]
      = .ok (⟨1, 0, 1, 0⟩,
          [⟨ps "paper_1_x", ps "t", ps "a", 100, "Highly Relevant", ps "iso", 1,
             ps "to read", ps "important", none, some true, none, some (ps "now"), none⟩])
    ∧ List.Forall₂ (fun p p' =>
        match check_paper_relevance chC5 p.title p.abstract [] with
        | .error _ => p' = p
        | .ok r => p'.relevance_score = r.relevance_score ∧ p'.category = r.category)
      [paperC5]
      [⟨ps "paper_1_x", ps "t", ps "a", 100, "Highly Relevant", ps "iso", 1,
         ps "to read", ps "important", none, some true, none, some (ps "now"), none⟩] := by
  have hcond : ¬ (1 : ℝ) < |100 - paperC5.relevance_score| := by
    rw [show paperC5.relevance_score = (100 : ℝ) from rfl]
    norm_num
  have hLoop : recalcLoop chC5 (ps "now") [paperC5]
      = ((0, 1, 0),
          [⟨ps "paper_1_x", ps "t", ps "a", 100, "Highly Relevant", ps "iso", 1,
             ps "to read", ps "important", none, some true, none, some (ps "now"), none⟩]) := by
    simp only [recalcLoop]
    rw [show paperC5.title = ps "t" from rfl, show paperC5.abstract = ps "a" from rfl,
      checkC5_nonotes]
    simp only [if_neg hcond]
    rfl
  have h : recalculate_all_relevance_scores chC5 (ps "now") [paperC5]
      = .ok (⟨1, 0, 1, 0⟩,
          [⟨ps "paper_1_x", ps "t", ps "a", 100, "Highly Relevant", ps "iso", 1,
             ps "to read", ps "important", none, some true, none, some (ps "now"), none⟩]) := by
    unfold recalculate_all_relevance_scores
    rw [show chC5.context_embedding = some [(1 : ℝ)] from rfl]
    dsimp only
    rw [hLoop]
    rfl
  exact ⟨h, C5_recalculate_ignores_notes chC5 (ps "now") _ _ _ h⟩

lemma batchLoop_papers (ch : Checker) (now : List Char) (papers : List Paper) :
    List.Forall₂ (fun p p' =>
      if needsNotesUpdate p then
        ∀ emb, create_paper_embedding_with_notes ch.encode p.title p.abstract p.notes = .ok emb →
        ∀ r, check_paper_relevance ch p.title p.abstract p.notes = .ok r →
          p' = { p with
              embedding := some emb,
              embedding_updated_date := some now,
              embedding_needs_update := some false,
              relevance_score := r.relevance_score,
              category := r.category }
      else p' = p)
    papers (batchLoop ch now papers).2 := by
  induction papers with
  | nil => exact List.Forall₂.nil
  | cons p rest ih =>
    cases hn : needsNotesUpdate p with
    | false =>
      simp only [batchLoop, hn]
      refine List.Forall₂.cons ?_ ih
      simp [hn]
    | true =>
      cases hcr : create_paper_embedding_with_notes ch.encode p.title p.abstract p.notes with
      | error e =>
        simp only [batchLoop, hn, hcr]
        refine List.Forall₂.cons ?_ ih
        simp only [hn, if_true]
        intro emb hemb
        rw [hcr] at hemb
        exact absurd hemb (by simp)
      | ok emb =>
        cases hck : check_paper_relevance ch p.title p.abstract p.notes with
        | error e =>
          simp only [batchLoop, hn, hcr, hck]
          refine List.Forall₂.cons ?_ ih
          simp only [hn, if_true]
          intro emb' hemb' r hr
          rw [hck] at hr
          exact absurd hr (by simp)
        | ok r =>
          simp only [batchLoop, hn, hcr, hck]
          refine List.Forall₂.cons ?_ ih
          simp only [hn, if_true]
          intro emb' hemb' r' hr'
          rw [hcr] at hemb'
          rw [hck] at hr'
          rw [Except.ok.injEq] at hemb' hr'
          rw [← hemb', ← hr']

lemma update_paper_notes_found (l2 : List Paper) (p : Paper)
    (pid notes iso : List Char) (hid : p.id = pid) :
    ∀ l1 : List Paper, (∀ q ∈ l1, q.id ≠ pid) →
    update_paper_notes (l1 ++ p :: l2) pid notes iso
      = l1 ++ { p with
          notes := notes,
          updated_date := some iso,
          embedding_needs_update := some true } :: l2 := by
  intro l1
  induction l1 with
  | nil =>
    intro _
    simp only [List.nil_append, update_paper_notes, if_pos hid]
  | cons q l1' ih =>
    intro hpre
    have hq : q.id ≠ pid := hpre q (List.mem_cons_self q l1')
    simp only [List.cons_append, update_paper_notes, if_neg hq, List.append_eq]
    rw [ih (fun q' hq' => hpre q' (List.mem_cons_of_mem q hq'))]

/-- C6: `update_paper_notes` sets the notes, the update date, and
`embedding_needs_update = true` on the (first) stored paper with the given id;
`batch_update_embeddings_with_notes` touches exactly the papers whose notes
are non-empty and whose `embedding_needs_update` is true (defaulting to true
when absent): each such paper, when embedding and re-scoring succeed, receives
the new embedding, an embedding-updated date, a cleared flag and the new
score/category, while every other paper — in particular every paper without
notes — is returned entirely unchanged. -/
theorem C6_staleness_flag :
    (∀ (l1 l2 : List Paper) (p : Paper) (pid notes iso : List Char),
        p.id = pid → (∀ q ∈ l1, q.id ≠ pid) →
        update_paper_notes (l1 ++ p :: l2) pid notes iso
          = l1 ++ { p with
              notes := notes,
              updated_date := some iso,
              embedding_needs_update := some true } :: l2)
    ∧ (∀ (ch : Checker) (now : List Char) (papers : List Paper),
        List.Forall₂ (fun p p' =>
          if needsNotesUpdate p then
            ∀ emb, create_paper_embedding_with_notes ch.encode p.title p.abstract p.notes
                = .ok emb →
            ∀ r, check_paper_relevance ch p.title p.abstract p.notes = .ok r →
              p' = { p with
                  embedding := some emb,
                  embedding_updated_date := some now,
                  embedding_needs_update := some false,
                  relevance_score := r.relevance_score,
                  category := r.category }
          else p' = p)
        papers (batch_update_embeddings_with_notes ch now papers).2) := by
  constructor
  · intro l1 l2 p pid notes iso hid hpre
    exact update_paper_notes_found l2 p pid notes iso hid l1 hpre
  · intro ch now papers
    exact batchLoop_papers ch now papers

lemma checkC6_blank : check_paper_relevance chC6 (ps "v") (ps "c") (ps " ")
    = .ok ⟨100, "Highly Relevant", ps "v", 1, false⟩ := by
  have h := check_paper_relevance_of_ok okOneEncoder [(1 : ℝ)] none []
    (ps "v") (ps "c") (ps " ") [(1 : ℝ)] rfl
  show check_paper_relevance ⟨okOneEncoder, some [(1 : ℝ)], none, []⟩ (ps "v") (ps "c") (ps " ")
    = .ok ⟨100, "Highly Relevant", ps "v", 1, false⟩
  rw [h]
  have hs : cosineSimilarity [(1 : ℝ)] [(1 : ℝ)] * 100 = 100 := by
    rw [cosineSimilarity_one_one]; norm_num
  rw [hs, if_pos (by norm_num : (100 : ℝ) ≥ 85)]
  rfl

/-- C6 counterexample: a paper whose notes are blank but non-empty (a single
space) with the staleness flag set is processed by the batch — its flag is
cleared, an embedding-updated date recorded and its embedding stored — even
though its notes are blank, so the batch does not restrict to non-blank
notes. -/
theorem C6_counterexample :
    pyStrip pC6blank.notes = []
    ∧ (batch_update_embeddings_with_notes chC6 (ps "now") [pC6blank]).2
        = [⟨ps "paper_3_x", ps "v", ps "c", 100, "Highly Relevant", ps "iso", 1,
            ps "read", ps " ", some [(1 : ℝ)], some false, some (ps "now"), none, none⟩] := by
  refine ⟨by decide, ?_⟩
  have hn : needsNotesUpdate pC6blank = true := rfl
  have hcr : create_paper_embedding_with_notes chC6.encode pC6blank.title
      pC6blank.abstract pC6blank.notes = .ok [(1 : ℝ)] := rfl
  have hck : check_paper_relevance chC6 pC6blank.title pC6blank.abstract pC6blank.notes
      = .ok ⟨100, "Highly Relevant", ps "v", 1, false⟩ := by
    rw [show pC6blank.title = ps "v" from rfl, show pC6blank.abstract = ps "c" from rfl,
      show pC6blank.notes = ps " " from rfl]
    exact checkC6_blank
  unfold batch_update_embeddings_with_notes
  dsimp only
  simp only [batchLoop, hn, hcr, hck]
  rfl

/-- C6 witness: editing notes on a concrete stored paper sets its staleness
flag, and the batch relation instantiated on a two-paper list (one noted and
flagged, one without notes). -/
theorem C6_witness :
    update_paper_notes ([] ++ pC6b :: []) (ps "paper_2_x") (ps "new notes") (ps "iso2")
      = [] ++ { pC6b with
          notes := ps "new notes",
          updated_date := some (ps "iso2"),
          embedding_needs_update := some true } :: []
    ∧ List.Forall₂ (fun p p' =>
        if needsNotesUpdate p then
          ∀ emb, create_paper_embedding_with_notes chC6.encode p.title p.abstract p.notes
              = .ok emb →
          ∀ r, check_paper_relevance chC6 p.title p.abstract p.notes = .ok r →
            p' = { p with
                embedding := some emb,
                embedding_updated_date := some (ps "now"),
                embedding_needs_update := some false,
                relevance_score := r.relevance_score,
                category := r.category }
        else p' = p)
      [pC6a, pC6b] (batch_update_embeddings_with_notes chC6 (ps "now") [pC6a, pC6b]).2 :=
  ⟨C6_staleness_flag.1 [] [] pC6b (ps "paper_2_x") (ps "new notes") (ps "iso2")
      rfl (by simp),
   C6_staleness_flag.2 chC6 (ps "now") [pC6a, pC6b]⟩
